import Mathlib

/-!
Verification of the TIFF compression tool (`app/compression_check.py`,
`app/tiff_compression.py`, `app/tiff_compression_gui.py`) against its
natural-language specification.

The Python code is shallowly embedded: files are modelled by an environment
mapping paths to raw byte content, with the external `tifffile` library's
decoding modelled as functions of those bytes; `hashlib.md5` is embedded as
a full executable MD5 over byte lists; fallible Python code (code that can
raise) returns `Except String`.
-/

/- ======================= MD5 (`hashlib.md5`) =======================

`TiffVerifier.verify_file_hashes` hashes each file's bytes with MD5 and
compares hexdigests.  Hex encoding of a digest is injective, so digest
(16-byte list) equality is compared directly. -/

/-- The 64 MD5 round constants `K[i] = floor(2^32 * |sin(i+1)|)` (RFC 1321). -/
def md5K : List Nat :=
  [0xd76aa478, 0xe8c7b756, 0x242070db, 0xc1bdceee,
   0xf57c0faf, 0x4787c62a, 0xa8304613, 0xfd469501,
   0x698098d8, 0x8b44f7af, 0xffff5bb1, 0x895cd7be,
   0x6b901122, 0xfd987193, 0xa679438e, 0x49b40821,
   0xf61e2562, 0xc040b340, 0x265e5a51, 0xe9b6c7aa,
   0xd62f105d, 0x02441453, 0xd8a1e681, 0xe7d3fbc8,
   0x21e1cde6, 0xc33707d6, 0xf4d50d87, 0x455a14ed,
   0xa9e3e905, 0xfcefa3f8, 0x676f02d9, 0x8d2a4c8a,
   0xfffa3942, 0x8771f681, 0x6d9d6122, 0xfde5380c,
   0xa4beea44, 0x4bdecfa9, 0xf6bb4b60, 0xbebfbc70,
   0x289b7ec6, 0xeaa127fa, 0xd4ef3085, 0x04881d05,
   0xd9d4d039, 0xe6db99e5, 0x1fa27cf8, 0xc4ac5665,
   0xf4292244, 0x432aff97, 0xab9423a7, 0xfc93a039,
   0x655b59c3, 0x8f0ccc92, 0xffeff47d, 0x85845dd1,
   0x6fa87e4f, 0xfe2ce6e0, 0xa3014314, 0x4e0811a1,
   0xf7537e82, 0xbd3af235, 0x2ad7d2bb, 0xeb86d391]

/-- The 64 MD5 per-round left-rotation amounts (RFC 1321). -/
def md5S : List Nat :=
  [7, 12, 17, 22, 7, 12, 17, 22, 7, 12, 17, 22, 7, 12, 17, 22,
   5,  9, 14, 20, 5,  9, 14, 20, 5,  9, 14, 20, 5,  9, 14, 20,
   4, 11, 16, 23, 4, 11, 16, 23, 4, 11, 16, 23, 4, 11, 16, 23,
   6, 10, 15, 21, 6, 10, 15, 21, 6, 10, 15, 21, 6, 10, 15, 21]

/-- Addition on 32-bit machine words, words being `Nat` reduced mod `2^32`. -/
def add32 (a b : Nat) : Nat := (a + b) % 4294967296

/-- Left rotation of a 32-bit word (input assumed `< 2^32`). -/
def rotl32 (x s : Nat) : Nat := ((x <<< s) % 4294967296) ||| (x >>> (32 - s))

/-- MD5 round function F: `(B ∧ C) ∨ (¬B ∧ D)`. -/
def md5F (b c d : Nat) : Nat := (b &&& c) ||| ((4294967295 ^^^ b) &&& d)

/-- MD5 round function G: `(D ∧ B) ∨ (¬D ∧ C)`. -/
def md5G (b c d : Nat) : Nat := (d &&& b) ||| ((4294967295 ^^^ d) &&& c)

/-- MD5 round function H: `B ⊕ C ⊕ D`. -/
def md5H (b c d : Nat) : Nat := b ^^^ c ^^^ d

/-- MD5 round function I: `C ⊕ (B ∨ ¬D)`. -/
def md5FI (b c d : Nat) : Nat := c ^^^ (b ||| (4294967295 ^^^ d))

/-- `k` little-endian bytes of `n`. -/
def leBytes (n : Nat) : Nat → List Nat
  | 0 => []
  | k + 1 => (n % 256) :: leBytes (n / 256) k

/-- Groups a byte list into 32-bit little-endian words. -/
def leWords : List Nat → List Nat
  | b0 :: b1 :: b2 :: b3 :: rest =>
      (b0 + 256 * b1 + 65536 * b2 + 16777216 * b3) :: leWords rest
  | _ => []

/-- Groups a word list into 16-word (64-byte) blocks. -/
def wordBlocks : List Nat → List (List Nat)
  | w0 :: w1 :: w2 :: w3 :: w4 :: w5 :: w6 :: w7 ::
    w8 :: w9 :: w10 :: w11 :: w12 :: w13 :: w14 :: w15 :: rest =>
      [w0, w1, w2, w3, w4, w5, w6, w7,
       w8, w9, w10, w11, w12, w13, w14, w15] :: wordBlocks rest
  | _ => []

/-- MD5 padding: append `0x80`, zeros to 56 mod 64, then the 64-bit
little-endian bit length. -/
def padMsg (msg : List Nat) : List Nat :=
  msg ++ [128] ++
    List.replicate ((56 + 64 - (msg.length + 1) % 64) % 64) 0 ++
    leBytes ((8 * msg.length) % 18446744073709551616) 8

/-- One of the 64 MD5 steps on a state `(a, b, c, d)`, for message words `M`. -/
def md5Step (M : List Nat) (st : Nat × Nat × Nat × Nat) (i : Nat) :
    Nat × Nat × Nat × Nat :=
  let (a, b, c, d) := st
  let f :=
    if i < 16 then md5F b c d
    else if i < 32 then md5G b c d
    else if i < 48 then md5H b c d
    else md5FI b c d
  let g :=
    if i < 16 then i
    else if i < 32 then (5 * i + 1) % 16
    else if i < 48 then (3 * i + 5) % 16
    else (7 * i) % 16
  let tmp := add32 (add32 (add32 a f) (md5K.getD i 0)) (M.getD g 0)
  (d, add32 b (rotl32 tmp (md5S.getD i 0)), b, c)

/-- MD5 compression of one block (given as its 16 message words) into the
running state. -/
def md5Block (st : Nat × Nat × Nat × Nat) (M : List Nat) :
    Nat × Nat × Nat × Nat :=
  let r := (List.range 64).foldl (md5Step M) st
  (add32 st.1 r.1, add32 st.2.1 r.2.1, add32 st.2.2.1 r.2.2.1,
   add32 st.2.2.2 r.2.2.2)

/-- MD5 digest of a byte list, as its 16 digest bytes
(`hashlib.md5(...).digest()`; the hexdigest is its injective hex encoding). -/
def md5 (msg : List Nat) : List Nat :=
  let st := (wordBlocks (leWords (padMsg msg))).foldl md5Block
    (1732584193, 4023233417, 2562383102, 271733878)
  leBytes st.1 4 ++ leBytes st.2.1 4 ++ leBytes st.2.2.1 4 ++ leBytes st.2.2.2 4

/- ======================= Verifier data model =======================

`tifffile.imread` yields a numpy ndarray: modelled as a shape together with
the row-major flattening of the elements (integer pixel samples).  The exact
statistics `np.mean` / `np.std` are modelled over `ℚ`; equality of standard
deviations is modelled as equality of variances (`Real.sqrt` is injective on
nonnegative reals, and the spec's comparisons are exact). -/

/-- A decoded image: shape plus row-major flattened pixel data
(well-formed when `data.length = shape.prod`). -/
structure NDArray where
  shape : List Nat
  data : List Int
deriving DecidableEq, Repr

/-- `np.array_equal`: same shape and identical elements. -/
def np_array_equal (a b : NDArray) : Bool :=
  a.shape == b.shape && a.data == b.data

/-- `np.min` over the flattened data (`⊤` only for the empty array, on which
numpy raises instead). -/
def npmin (l : List Int) : WithTop Int :=
  l.foldr (fun (x : Int) (m : WithTop Int) => min (x : WithTop Int) m) ⊤

/-- `np.max` over the flattened data (`⊥` only for the empty array, on which
numpy raises instead). -/
def npmax (l : List Int) : WithBot Int :=
  l.foldr (fun (x : Int) (m : WithBot Int) => max (x : WithBot Int) m) ⊥

/-- `np.mean`: arithmetic mean of the elements, as an exact rational. -/
def npmean (l : List Int) : ℚ :=
  (l.map (fun x => (Int.cast x : ℚ))).sum / l.length

/-- `np.std` squared: the (population) variance of the elements, as an exact
rational; two standard deviations are equal iff the variances are. -/
def npvariance (l : List Int) : ℚ :=
  (l.map (fun x => (Int.cast x - npmean l : ℚ) ^ 2)).sum / l.length

/-- ImageJ metadata: a finite mapping from field names to integer values
(`tifffile`'s `imagej_metadata` dict), or absent as a whole. -/
abbrev ImagejDict := List (String × Int)

/-- Python `dict.get`: value of the first binding of `k`, if any. -/
def dict_get (m : ImagejDict) (k : String) : Option Int :=
  (List.find? (fun p => p.1 == k) m).map (fun p => p.2)

/-- Python `k in dict`: key membership. -/
def dict_mem (m : ImagejDict) (k : String) : Bool :=
  List.any m (fun p => p.1 == k)

/-- The file system and the `tifffile` library: each path has raw byte
content, and decoding (full array, first-series shape, ImageJ metadata) is a
function of those bytes that can raise (`Except.error` = raised exception). -/
structure TiffEnv where
  bytes : String → List Nat
  imread : List Nat → Except String NDArray
  seriesShape0 : List Nat → Except String (List Nat)
  imagejMeta : List Nat → Except String (Option ImagejDict)

/-- `tifffile.imread(path)`. -/
def tiff_imread (env : TiffEnv) (p : String) : Except String NDArray :=
  env.imread (env.bytes p)

/- ======================= TiffVerifier checks ======================= -/

/-- `TiffVerifier.verify_pixel_values` (compression_check.py:31-46): reads
both arrays, returns false if shapes differ, else `np.array_equal`; a raised
read error is wrapped as `Pixel comparison failed: ...`. -/
def verify_pixel_values (env : TiffEnv) (original_path compressed_path : String) :
    Except String Bool :=
  match tiff_imread env original_path with
  | .error e => .error ("Pixel comparison failed: " ++ e)
  | .ok original =>
    match tiff_imread env compressed_path with
    | .error e => .error ("Pixel comparison failed: " ++ e)
    | .ok compressed =>
      if original.shape ≠ compressed.shape then .ok false
      else .ok (np_array_equal original compressed)

/-- `TiffVerifier.verify_file_hashes` (compression_check.py:48-63): MD5 each
file's bytes and return whether the digests differ. -/
def verify_file_hashes (env : TiffEnv) (original_path compressed_path : String) :
    Bool :=
  md5 (env.bytes original_path) != md5 (env.bytes compressed_path)

/-- `TiffVerifier.verify_dimensions` (compression_check.py:65-73): compare
the declared shapes of the first series; read errors propagate unwrapped. -/
def verify_dimensions (env : TiffEnv) (original_path compressed_path : String) :
    Except String Bool :=
  match env.seriesShape0 (env.bytes original_path) with
  | .error e => .error e
  | .ok orig_shape =>
    match env.seriesShape0 (env.bytes compressed_path) with
    | .error e => .error e
    | .ok comp_shape => .ok (orig_shape == comp_shape)

/-- The crucial metadata fields of `verify_metadata`. -/
def crucial_fields : List String := ["frames", "slices", "channels"]

/-- `TiffVerifier.verify_metadata` (compression_check.py:75-95): both absent
⇒ match; exactly one absent ⇒ mismatch; both present ⇒ every crucial field
present in the original's metadata has an equal `get` in the compressed's;
read errors propagate unwrapped. -/
def verify_metadata (env : TiffEnv) (original_path compressed_path : String) :
    Except String Bool :=
  match env.imagejMeta (env.bytes original_path) with
  | .error e => .error e
  | .ok orig_meta =>
    match env.imagejMeta (env.bytes compressed_path) with
    | .error e => .error e
    | .ok comp_meta =>
      match orig_meta, comp_meta with
      | none, none => .ok true
      | some _, none => .ok false
      | none, some _ => .ok false
      | some mo, some mc =>
          .ok (crucial_fields.all fun field =>
            !(dict_mem mo field) || (dict_get mo field == dict_get mc field))

/-- The four statistics comparisons of `verify_statistics` (std equality
modelled as variance equality). -/
def stats_match (a b : NDArray) : Bool :=
  (npmin a.data == npmin b.data) && (npmax a.data == npmax b.data) &&
  (npmean a.data == npmean b.data) && (npvariance a.data == npvariance b.data)

/-- `TiffVerifier.verify_statistics` (compression_check.py:97-111): reads
both arrays and compares min/max/mean/std; read errors propagate unwrapped. -/
def verify_statistics (env : TiffEnv) (original_path compressed_path : String) :
    Except String Bool :=
  match tiff_imread env original_path with
  | .error e => .error e
  | .ok original =>
    match tiff_imread env compressed_path with
    | .error e => .error e
    | .ok compressed => .ok (stats_match original compressed)

/-- The result dict of `verify_all`, one boolean per check. -/
structure VerificationReport where
  pixel_values_match : Bool
  file_hash_different : Bool
  dimensions_match : Bool
  metadata_matches : Bool
  statistical_match : Bool
deriving DecidableEq, Repr

/-- `TiffVerifier.verify_all` (compression_check.py:20-29): runs the five
checks in order; the first raised error propagates. -/
def verify_all (env : TiffEnv) (original_path compressed_path : String) :
    Except String VerificationReport :=
  match verify_pixel_values env original_path compressed_path with
  | .error e => .error e
  | .ok p =>
    match verify_dimensions env original_path compressed_path with
    | .error e => .error e
    | .ok d =>
      match verify_metadata env original_path compressed_path with
      | .error e => .error e
      | .ok m =>
        match verify_statistics env original_path compressed_path with
        | .error e => .error e
        | .ok s =>
            .ok ⟨p, verify_file_hashes env original_path compressed_path, d, m, s⟩

/-- `all(results.values())` over a verification report. -/
def all_checks (r : VerificationReport) : Bool :=
  r.pixel_values_match && r.file_hash_different && r.dimensions_match &&
  r.metadata_matches && r.statistical_match

/-- `check_compression` (compression_check.py:158-179): overall success iff
all five checks pass. -/
def check_compression (env : TiffEnv) (original compressed : String) :
    Except String Bool :=
  (verify_all env original compressed).map all_checks

/- =================== Output naming (tiff_compression.py) ===================

Paths are strings with `/` separators; `os.path.basename`, `os.path.dirname`
and `os.path.splitext` are modelled on the character lists. -/

/-- `os.path.basename`: the part after the last `/` (the whole string if
there is none). -/
def basename (p : String) : String :=
  String.mk ((p.toList.reverse.takeWhile (fun ch => ch ≠ '/')).reverse)

/-- `os.path.dirname`: the part before the last `/` (empty if there is
none). -/
def dirname (p : String) : String :=
  let r := p.toList.reverse
  let pre := r.takeWhile (fun ch => ch ≠ '/')
  if pre.length = r.length then ""
  else String.mk ((r.drop (pre.length + 1)).reverse)

/-- `os.path.splitext` on a basename: split at the last dot, except that
leading dots never start an extension. -/
def splitext (b : String) : String × String :=
  let cs := b.toList
  let lead := cs.takeWhile (fun ch => ch = '.')
  let rest := cs.drop lead.length
  let revPre := rest.reverse.takeWhile (fun ch => ch ≠ '.')
  if revPre.length = rest.length then (b, "")
  else (String.mk (lead ++ rest.take (rest.length - revPre.length - 1)),
        String.mk (rest.drop (rest.length - revPre.length - 1)))

/-- The output path computed by `TiffCompressorManager.compress_file`
(tiff_compression.py:81-90): `join(folder, stem) + '_compressed_' + type +
'.tif'`, where `folder` is the input's directory and `stem` its basename
without extension. -/
def compress_file_name (file compression_type : String) : String :=
  dirname file ++ "/" ++ (splitext (basename file)).1 ++
    "_compressed_" ++ compression_type ++ ".tif"

/-- The output path computed by
`TiffCompressorManager.batch_compress_directory` (tiff_compression.py:71):
`output_dir / ('compressed_' + input file name)`. -/
def batch_output_name (output_dir file_name : String) : String :=
  output_dir ++ "/" ++ ("compressed_" ++ file_name)

/- =================== File management (tiff_compression_gui.py) ===========

The file system is the list of existing paths; `os.remove` deletes an
existing path and raises on a missing one. -/

/-- `os.remove`: delete `p` from the file system, raising if absent. -/
def os_remove (fs : List String) (p : String) : Except String (List String) :=
  if p ∈ fs then .ok (fs.erase p)
  else .error ("No such file or directory: " ++ p)

/-- `TiffCompressorGUI.manage_files` (tiff_compression_gui.py:102-117):
on success delete the original and return the compressed path, on failure
delete the compressed file and return the original path; any raised deletion
error is caught and the original path returned, the file system unchanged.
Returns the resulting file system and the kept (returned) path. -/
def manage_files (fs : List String) (original_path compressed_path : String)
    (compression_successful : Bool) : List String × String :=
  if compression_successful then
    match os_remove fs original_path with
    | .ok fs1 => (fs1, compressed_path)
    | .error _ => (fs, original_path)
  else
    match os_remove fs compressed_path with
    | .ok fs1 => (fs1, original_path)
    | .error _ => (fs, original_path)

/-- `TiffCompressorGUI.compress_single_file` (tiff_compression_gui.py:119-140):
compress (which creates the compressed file and can raise), verify with
`check_compression` (which can raise), then `manage_files`.  `compressOk`
abstracts whether `compress_with_tifffile` succeeds and `checkFn` the
verification verdict; both raise by returning `.error`. -/
def compress_single_file (compressOk : String → Except String Unit)
    (checkFn : String → String → Except String Bool)
    (fs : List String) (file_path method : String) :
    Except String (List String × String) :=
  match compressOk file_path with
  | .error e => .error e
  | .ok _ =>
    let compressed_path := compress_file_name file_path method
    let fs1 := if compressed_path ∈ fs then fs else compressed_path :: fs
    match checkFn file_path compressed_path with
    | .error e => .error e
    | .ok success => .ok (manage_files fs1 file_path compressed_path success)

/-- `TiffCompressorGUI.compress_folder` (tiff_compression_gui.py:142-155):
runs the single-file flow on each file in order with no per-file exception
handler, so the first raised error propagates out of the loop.  Returns the
files attempted (in order) and the propagated error, if any. -/
def compress_folder (proc : String → Except String Unit) :
    List String → List String × Option String
  | [] => ([], none)
  | f :: rest =>
    match proc f with
    | .ok _ =>
        let r := compress_folder proc rest
        (f :: r.1, r.2)
    | .error e => ([f], some e)

/-- `TiffCompressorManager.batch_compress_directory`
(tiff_compression.py:58-79): per-file `try/except` that prints and
continues, collecting the successful results only. -/
def batch_compress_results (proc : String → Except String String) :
    List String → List String
  | [] => []
  | f :: rest =>
    match proc f with
    | .ok s => s :: batch_compress_results proc rest
    | .error _ => batch_compress_results proc rest

/- =================== Concrete inputs for witnesses ======================= -/

/-- First message of the classic Wang et al. MD5 collision pair. -/
def wangA : List Nat :=
  [209, 49, 221, 2, 197, 230, 238, 196, 105, 61, 154, 6, 152, 175, 249, 92,
   47, 202, 181, 135, 18, 70, 126, 171, 64, 4, 88, 62, 184, 251, 127, 137,
   85, 173, 52, 6, 9, 244, 179, 2, 131, 228, 136, 131, 37, 113, 65, 90,
   8, 81, 37, 232, 247, 205, 201, 159, 217, 29, 189, 242, 128, 55, 60, 91,
   216, 130, 62, 49, 86, 52, 143, 91, 174, 109, 172, 212, 54, 201, 25, 198,
   221, 83, 226, 180, 135, 218, 3, 253, 2, 57, 99, 6, 210, 72, 205, 160,
   233, 159, 51, 66, 15, 87, 126, 232, 206, 84, 182, 112, 128, 168, 13, 30,
   198, 152, 33, 188, 182, 168, 131, 147, 150, 249, 101, 43, 111, 247, 42, 112]

/-- Second message of the classic Wang et al. MD5 collision pair: differs
from `wangA` in six bytes yet has the same MD5 digest. -/
def wangB : List Nat :=
  [209, 49, 221, 2, 197, 230, 238, 196, 105, 61, 154, 6, 152, 175, 249, 92,
   47, 202, 181, 7, 18, 70, 126, 171, 64, 4, 88, 62, 184, 251, 127, 137,
   85, 173, 52, 6, 9, 244, 179, 2, 131, 228, 136, 131, 37, 241, 65, 90,
   8, 81, 37, 232, 247, 205, 201, 159, 217, 29, 189, 114, 128, 55, 60, 91,
   216, 130, 62, 49, 86, 52, 143, 91, 174, 109, 172, 212, 54, 201, 25, 198,
   221, 83, 226, 52, 135, 218, 3, 253, 2, 57, 99, 6, 210, 72, 205, 160,
   233, 159, 51, 66, 15, 87, 126, 232, 206, 84, 182, 112, 128, 40, 13, 30,
   198, 152, 33, 188, 182, 168, 131, 147, 150, 249, 101, 171, 111, 247, 42, 112]

/-- An environment holding the two colliding byte contents as two distinct
files. -/
def collEnv : TiffEnv where
  bytes := fun p => if p = "a.tif" then wangA else wangB
  imread := fun _ => .error "unreadable"
  seriesShape0 := fun _ => .error "unreadable"
  imagejMeta := fun _ => .ok none

/-- An environment in which every decode raises with the raw library
message `decode failed`. -/
def errEnv : TiffEnv where
  bytes := fun _ => []
  imread := fun _ => .error "decode failed"
  seriesShape0 := fun _ => .error "decode failed"
  imagejMeta := fun _ => .error "decode failed"

/-- An environment with a single well-readable content shared by all paths
(byte-identical original and compressed). -/
def sameEnv : TiffEnv where
  bytes := fun _ => [7, 8, 9]
  imread := fun _ => .ok ⟨[3], [5, 6, 7]⟩
  seriesShape0 := fun _ => .ok [3]
  imagejMeta := fun _ => .ok (some [("frames", 3)])

/-- An environment with two readable files whose arrays are element
permutations of each other and whose metadata share the crucial fields. -/
def twoEnv : TiffEnv where
  bytes := fun p => if p = "a.tif" then [1] else [2]
  imread := fun bs =>
    if bs = [1] then .ok ⟨[2, 2], [1, 2, 3, 4]⟩ else .ok ⟨[2, 2], [4, 3, 2, 1]⟩
  seriesShape0 := fun _ => .ok [2, 2]
  imagejMeta := fun bs =>
    if bs = [1] then .ok (some [("frames", 2), ("slices", 1)])
    else .ok (some [("frames", 2), ("slices", 1), ("channels", 3)])

/-- A per-file single-file flow that raises on `a.tif` and succeeds on every
other file. -/
def procFailA : String → Except String Unit := fun f =>
  if f = "a.tif" then .error "Tifffile compression failed: boom" else .ok ()


/-- Decidable equality for `Except`, componentwise. -/
instance {ε α : Type _} [DecidableEq ε] [DecidableEq α] :
    DecidableEq (Except ε α) := fun x y =>
  match x, y with
  | .error a, .error b =>
      if h : a = b then .isTrue (congrArg Except.error h)
      else .isFalse (fun hh => h (by injection hh))
  | .ok a, .ok b =>
      if h : a = b then .isTrue (congrArg Except.ok h)
      else .isFalse (fun hh => h (by injection hh))
  | .error _, .ok _ => .isFalse (fun hh => by injection hh)
  | .ok _, .error _ => .isFalse (fun hh => by injection hh)

/- ============================ Helper lemmas ============================ -/

/-- A permutation of the elements leaves `np.min` unchanged. -/
theorem npmin_perm {l₁ l₂ : List Int} (p : l₁.Perm l₂) : npmin l₁ = npmin l₂ := by
  unfold npmin
  refine @List.Perm.foldr_eq _ _ _ _ _ ?_ p (⊤ : WithTop Int)
  exact ⟨fun a b m => min_left_comm _ _ _⟩

/-- A permutation of the elements leaves `np.max` unchanged. -/
theorem npmax_perm {l₁ l₂ : List Int} (p : l₁.Perm l₂) : npmax l₁ = npmax l₂ := by
  unfold npmax
  refine @List.Perm.foldr_eq _ _ _ _ _ ?_ p (⊥ : WithBot Int)
  exact ⟨fun a b m => max_left_comm _ _ _⟩

/-- A permutation of the elements leaves `np.mean` unchanged. -/
theorem npmean_perm {l₁ l₂ : List Int} (p : l₁.Perm l₂) : npmean l₁ = npmean l₂ := by
  unfold npmean
  rw [(p.map _).sum_eq, p.length_eq]

/-- A permutation of the elements leaves the variance unchanged. -/
theorem npvariance_perm {l₁ l₂ : List Int} (p : l₁.Perm l₂) :
    npvariance l₁ = npvariance l₂ := by
  unfold npvariance
  rw [npmean_perm p, (p.map _).sum_eq, p.length_eq]

/-- All four statistics agree across a permutation of the data. -/
theorem stats_match_of_perm {a b : NDArray} (p : a.data.Perm b.data) :
    stats_match a b = true := by
  simp [stats_match, npmin_perm p, npmax_perm p, npmean_perm p, npvariance_perm p]

/-- The `takeWhile` of a list whose prefix wholly satisfies `p`, followed by
an element refuting `p`, is exactly that prefix. -/
theorem takeWhile_all_stop {p : Char → Bool} (l₁ : List Char) (a : Char)
    (l₂ : List Char) (h₁ : ∀ x ∈ l₁, p x = true) (ha : p a = false) :
    (l₁ ++ a :: l₂).takeWhile p = l₁ := by
  induction l₁ with
  | nil => simp [List.takeWhile_cons, ha]
  | cons x xs ih =>
      have hx := h₁ x (List.mem_cons_self x xs)
      simp only [List.cons_append, List.takeWhile_cons, hx, if_true]
      rw [ih (fun y hy => h₁ y (List.mem_cons_of_mem x hy))]

/-- Rebuilding a string from its character list is the identity. -/
theorem string_mk_toList (s : String) : String.mk s.toList = s := rfl

/-- `toList` distributes over string append. -/
theorem string_toList_append (s t : String) :
    (s ++ t).toList = s.toList ++ t.toList := String.data_append s t

/-- Character list of a `/`-joined path. -/
theorem sep_toList_concat (d b : String) :
    (d ++ "/" ++ b).toList = d.toList ++ '/' :: b.toList := by
  have hslash : ("/" : String).toList = ['/'] := rfl
  simp [string_toList_append, hslash]

/-- Character list of a dotted file name. -/
theorem dot_toList_concat (stem ext : String) :
    (stem ++ "." ++ ext).toList = stem.toList ++ '.' :: ext.toList := by
  have hdot : ("." : String).toList = ['.'] := rfl
  simp [string_toList_append, hdot]

/-- `basename` of a `/`-joined path whose last component has no slash. -/
theorem basename_concat (d b : String) (hb : '/' ∉ b.toList) :
    basename (d ++ "/" ++ b) = b := by
  unfold basename
  rw [sep_toList_concat]
  simp only [List.reverse_append, List.reverse_cons, List.append_assoc,
    List.singleton_append]
  have htw : List.takeWhile (fun ch => decide (ch ≠ '/'))
      (b.toList.reverse ++ '/' :: d.toList.reverse) = b.toList.reverse :=
    takeWhile_all_stop b.toList.reverse '/' d.toList.reverse
      (fun x hx => decide_eq_true
        (fun heq : x = '/' => hb (heq ▸ List.mem_reverse.mp hx)))
      (by decide)
  rw [htw, List.reverse_reverse]
  exact string_mk_toList b

/-- `dirname` of a `/`-joined path whose last component has no slash. -/
theorem dirname_concat (d b : String) (hb : '/' ∉ b.toList) :
    dirname (d ++ "/" ++ b) = d := by
  unfold dirname
  rw [sep_toList_concat]
  simp only [List.reverse_append, List.reverse_cons, List.append_assoc,
    List.singleton_append]
  have htw : List.takeWhile (fun ch => decide (ch ≠ '/'))
      (b.toList.reverse ++ '/' :: d.toList.reverse) = b.toList.reverse :=
    takeWhile_all_stop b.toList.reverse '/' d.toList.reverse
      (fun x hx => decide_eq_true
        (fun heq : x = '/' => hb (heq ▸ List.mem_reverse.mp hx)))
      (by decide)
  rw [htw]
  rw [if_neg (by simp)]
  have hsplit : b.toList.reverse ++ '/' :: d.toList.reverse =
      (b.toList.reverse ++ ['/']) ++ d.toList.reverse := by
    simp
  rw [hsplit]
  have hlen : b.toList.reverse.length + 1 = (b.toList.reverse ++ ['/']).length := by
    simp
  rw [hlen, List.drop_left, List.reverse_reverse]
  exact string_mk_toList d

/-- The stem component of `splitext` on a dotted name whose stem is nonempty
and dot-free and whose extension is dot-free. -/
theorem splitext_concat (stem ext : String) (hs : stem.toList ≠ [])
    (hs2 : '.' ∉ stem.toList) (he2 : '.' ∉ ext.toList) :
    (splitext (stem ++ "." ++ ext)).1 = stem := by
  obtain ⟨s0, ss, hss⟩ : ∃ s0 ss, stem.toList = s0 :: ss := by
    cases h : stem.toList with
    | nil => exact absurd h hs
    | cons a l => exact ⟨a, l, rfl⟩
  have hs0 : s0 ∈ stem.toList := by rw [hss]; exact List.mem_cons_self _ _
  have hlead : List.takeWhile (fun ch => decide (ch = '.'))
      (stem.toList ++ '.' :: ext.toList) = [] := by
    rw [hss, List.cons_append, List.takeWhile_cons,
      if_neg (by simp; exact fun heq : s0 = '.' => hs2 (heq ▸ hs0))]
  have htw : List.takeWhile (fun ch => decide (ch ≠ '.'))
      ((stem.toList ++ '.' :: ext.toList).reverse) = ext.toList.reverse := by
    have hrev : (stem.toList ++ '.' :: ext.toList).reverse =
        ext.toList.reverse ++ '.' :: stem.toList.reverse := by
      simp
    rw [hrev]
    exact takeWhile_all_stop ext.toList.reverse '.' stem.toList.reverse
      (fun x hx => decide_eq_true
        (fun heq : x = '.' => he2 (heq ▸ List.mem_reverse.mp hx)))
      (by decide)
  simp only [splitext, dot_toList_concat, hlead, List.length_nil,
    List.drop_zero, htw]
  rw [if_neg (by
    simp only [List.length_reverse, List.length_append, List.length_cons]
    omega)]
  have hlen : (stem.toList ++ '.' :: ext.toList).length -
      ext.toList.reverse.length - 1 = stem.toList.length := by
    simp only [List.length_reverse, List.length_append, List.length_cons]
    omega
  rw [hlen]
  simp only [List.nil_append, List.take_left]
  exact string_mk_toList stem

/- ============================ Claim theorems ============================ -/

/-- Claim C1: for every pair of readable input files, `verify_pixel_values`
returns false when the two decoded arrays have different shapes, and when
the shapes are equal it returns true iff every element of the original
array equals the corresponding element of the compressed array exactly (no
tolerance). -/
theorem verify_pixel_values_spec (env : TiffEnv) (o c : String) (a b : NDArray)
    (ho : tiff_imread env o = .ok a) (hc : tiff_imread env c = .ok b)
    (hwa : a.data.length = a.shape.prod) (hwb : b.data.length = b.shape.prod) :
    (a.shape ≠ b.shape → verify_pixel_values env o c = .ok false) ∧
    (a.shape = b.shape →
      (verify_pixel_values env o c = .ok true ↔
        ∀ i (hi : i < a.data.length) (hj : i < b.data.length),
          a.data.get ⟨i, hi⟩ = b.data.get ⟨i, hj⟩)) := by
  constructor
  · intro hne
    simp [verify_pixel_values, ho, hc, hne]
  · intro heq
    have hlen : a.data.length = b.data.length := by rw [hwa, hwb, heq]
    simp only [verify_pixel_values, ho, hc, heq, ne_eq, not_true_eq_false,
      if_false, Except.ok.injEq, np_array_equal, Bool.and_eq_true, beq_iff_eq,
      true_and]
    constructor
    · intro hd i hi hj
      exact (List.ext_get_iff.mp hd).2 i hi hj
    · intro h
      exact List.ext_get_iff.mpr ⟨hlen, h⟩

/-- Witness for C1: two byte-identical readable files verify as true. -/
theorem verify_pixel_values_spec_witness :
    verify_pixel_values sameEnv "x.tif" "y.tif" = Except.ok true := by
  exact ((verify_pixel_values_spec sameEnv "x.tif" "y.tif"
      ⟨[3], [5, 6, 7]⟩ ⟨[3], [5, 6, 7]⟩ rfl rfl (by decide) (by decide)).2
    rfl).mpr (fun i hi hj => rfl)

/-- Claim C2: in the single-file flow, after compression and verification,
if verification succeeds the original file is deleted and the compressed
file is kept (and returned as the kept file); if verification fails the
compressed file is deleted and the original file is kept. -/
theorem compress_single_file_spec
    (compressOk : String → Except String Unit)
    (checkFn : String → String → Except String Bool)
    (fs : List String) (file_path method comp : String) (success : Bool)
    (hcomp : comp = compress_file_name file_path method)
    (hok : compressOk file_path = .ok ())
    (hchk : checkFn file_path comp = .ok success)
    (hfile : file_path ∈ fs) (hnotin : comp ∉ fs) (hne : comp ≠ file_path)
    (hnd : fs.Nodup) :
    (success = true →
      ∃ fs1, compress_single_file compressOk checkFn fs file_path method =
          .ok (fs1, comp) ∧ file_path ∉ fs1 ∧ comp ∈ fs1) ∧
    (success = false →
      compress_single_file compressOk checkFn fs file_path method =
        .ok (fs, file_path) ∧ comp ∉ fs ∧ file_path ∈ fs) := by
  subst hcomp
  unfold compress_single_file
  simp only [hok, hchk]
  have hnodup : (compress_file_name file_path method :: fs).Nodup :=
    List.nodup_cons.mpr ⟨hnotin, hnd⟩
  constructor
  · rintro rfl
    refine ⟨(compress_file_name file_path method :: fs).erase file_path,
      ?_, ?_, ?_⟩
    · simp [if_neg hnotin, manage_files, os_remove, List.mem_cons, hfile]
    · intro hmem
      exact absurd ((hnodup.mem_erase_iff).mp hmem).1 (by simp)
    · exact (hnodup.mem_erase_iff).mpr ⟨hne, List.mem_cons_self _ _⟩
  · rintro rfl
    refine ⟨?_, hnotin, hfile⟩
    simp [if_neg hnotin, manage_files, os_remove, List.mem_cons,
      List.erase_cons_head]

/-- Witness for C2: successful verification of `/d/1.tif` deletes the
original and keeps `/d/1_compressed_zip.tif`. -/
theorem compress_single_file_spec_witness :
    (∃ fs1, compress_single_file (fun _ => .ok ()) (fun _ _ => .ok true)
        ["/d/1.tif"] "/d/1.tif" "zip" =
        .ok (fs1, "/d/1_compressed_zip.tif") ∧
      "/d/1.tif" ∉ fs1 ∧ "/d/1_compressed_zip.tif" ∈ fs1) :=
  (compress_single_file_spec (fun _ => .ok ()) (fun _ _ => .ok true)
    ["/d/1.tif"] "/d/1.tif" "zip" "/d/1_compressed_zip.tif" true
    (by decide) rfl rfl (by decide) (by decide) (by decide) (by decide)).1 rfl

/-- Counterexample for C3: with two files where the first raises during the
single-file flow, the second file is never processed — the batch aborts. -/
theorem compress_folder_abort_cex :
    compress_folder procFailA ["a.tif", "b.tif"] =
      (["a.tif"], some "Tifffile compression failed: boom") ∧
    "b.tif" ∉ (compress_folder procFailA ["a.tif", "b.tif"]).1 := by
  constructor
  · rfl
  · decide

/-- Claim C3 (amended): the GUI directory flow processes the files in
sequence; when no file raises, every file is processed, but a raised error
while processing one file propagates and aborts the batch — the files after
the failing one are not processed. -/
theorem compress_folder_spec (proc : String → Except String Unit) :
    (∀ files, (∀ f ∈ files, proc f = .ok ()) →
      compress_folder proc files = (files, none)) ∧
    (∀ l₁ f l₂ e, (∀ g ∈ l₁, proc g = .ok ()) → proc f = .error e →
      compress_folder proc (l₁ ++ f :: l₂) = (l₁ ++ [f], some e)) := by
  constructor
  · intro files h
    induction files with
    | nil => rfl
    | cons x xs ih =>
        have hx := h x (List.mem_cons_self x xs)
        have ihx := ih (fun g hg => h g (List.mem_cons_of_mem x hg))
        simp [compress_folder, hx, ihx]
  · intro l₁ f l₂ e h1 hf
    induction l₁ with
    | nil => simp [compress_folder, hf]
    | cons x xs ih =>
        have hx := h1 x (List.mem_cons_self x xs)
        have ihx := ih (fun g hg => h1 g (List.mem_cons_of_mem x hg))
        simp [compress_folder, hx, ihx]

/-- Witness for the amended C3: a failure on the second of three files
stops the batch after that file. -/
theorem compress_folder_spec_witness :
    compress_folder procFailA ["b.tif", "a.tif", "c.tif"] =
      (["b.tif", "a.tif"], some "Tifffile compression failed: boom") :=
  (compress_folder_spec procFailA).2 ["b.tif"] "a.tif" ["c.tif"]
    "Tifffile compression failed: boom" (by decide) (by decide)

/-- Counterexample for C4: `batch_compress_directory` names its output
`compressed_<name>`, which does not follow the
`<name>_compressed_<method>.tif` convention (method defaults to `lzw`). -/
theorem batch_output_name_cex :
    batch_output_name "out" "1.tif" = "out/compressed_1.tif" ∧
    basename (batch_output_name "out" "1.tif") = "compressed_1.tif" ∧
    (splitext "1.tif").1 ++ "_compressed_" ++ "lzw" ++ ".tif" =
      "1_compressed_lzw.tif" ∧
    basename (batch_output_name "out" "1.tif") ≠
      (splitext "1.tif").1 ++ "_compressed_" ++ "lzw" ++ ".tif" := by
  refine ⟨rfl, rfl, rfl, ?_⟩
  decide

/-- Claim C4 (amended): every output of `compress_file` is named
`<name>_compressed_<method>.tif`, `<name>` being the input's base name
without extension, joined onto the input's directory. -/
theorem compress_file_name_spec (d stem ext method : String)
    (hstem : stem.toList ≠ []) (hs1 : '/' ∉ stem.toList)
    (hs2 : '.' ∉ stem.toList) (he1 : '/' ∉ ext.toList)
    (he2 : '.' ∉ ext.toList) :
    compress_file_name (d ++ "/" ++ (stem ++ "." ++ ext)) method =
      d ++ "/" ++ stem ++ "_compressed_" ++ method ++ ".tif" := by
  have hbslash : '/' ∉ (stem ++ "." ++ ext).toList := by
    rw [dot_toList_concat]
    intro hmem
    rcases List.mem_append.mp hmem with h | h
    · exact hs1 h
    · rcases List.mem_cons.mp h with h | h
      · cases h
      · exact he1 h
  unfold compress_file_name
  rw [dirname_concat _ _ hbslash, basename_concat _ _ hbslash,
    splitext_concat _ _ hstem hs2 he2]

/-- Witness for the amended C4: the single-file compressor maps
`/d/1.tif` with method `zip` to `/d/1_compressed_zip.tif`. -/
theorem compress_file_name_spec_witness :
    compress_file_name "/d/1.tif" "zip" = "/d/1_compressed_zip.tif" := by
  have h := compress_file_name_spec "/d" "1" "tif" "zip"
    (by decide) (by decide) (by decide) (by decide) (by decide)
  exact h

/-- Claim C5: `verify_metadata` returns true when both files lack metadata,
false when exactly one of the two lacks metadata, and when both have
metadata it returns true iff each crucial field (`frames`, `slices`,
`channels`) present in the original's metadata has an equal value in the
compressed file's metadata (fields absent from the original are skipped). -/
theorem verify_metadata_spec (env : TiffEnv) (o c : String)
    (mo mc : Option ImagejDict)
    (hmo : env.imagejMeta (env.bytes o) = .ok mo)
    (hmc : env.imagejMeta (env.bytes c) = .ok mc) :
    (mo = none → mc = none → verify_metadata env o c = .ok true) ∧
    (∀ md, mo = some md → mc = none → verify_metadata env o c = .ok false) ∧
    (∀ cd, mo = none → mc = some cd → verify_metadata env o c = .ok false) ∧
    (∀ md cd, mo = some md → mc = some cd →
      (verify_metadata env o c = .ok true ↔
        ∀ field ∈ crucial_fields, dict_mem md field = true →
          dict_get md field = dict_get cd field)) := by
  unfold verify_metadata
  rw [hmo, hmc]
  refine ⟨?_, ?_, ?_, ?_⟩
  · rintro rfl rfl; rfl
  · rintro md rfl rfl; rfl
  · rintro cd rfl rfl; rfl
  · rintro md cd rfl rfl
    simp only [Except.ok.injEq, List.all_eq_true, Bool.or_eq_true,
      Bool.not_eq_true', beq_iff_eq]
    constructor
    · intro h field hf hmem
      rcases h field hf with h1 | h2
      · rw [hmem] at h1; cases h1
      · exact h2
    · intro h field hf
      by_cases hm : dict_mem md field = true
      · exact Or.inr (h field hf hm)
      · exact Or.inl (Bool.not_eq_true _ ▸ hm)

/-- Witness for C5: both files carry metadata and every crucial field
present in the original matches in the compressed file. -/
theorem verify_metadata_spec_witness :
    verify_metadata twoEnv "a.tif" "b.tif" = Except.ok true := by
  exact ((verify_metadata_spec twoEnv "a.tif" "b.tif"
      (some [("frames", 2), ("slices", 1)])
      (some [("frames", 2), ("slices", 1), ("channels", 3)])
      rfl rfl).2.2.2 _ _ rfl rfl).mpr (by decide)

set_option maxRecDepth 100000 in
/-- Counterexample for C6: the classic MD5 collision pair gives two files
with different byte content on which `verify_file_hashes` returns false,
refuting "returns true for every pair of files whose byte content
differs". -/
theorem verify_file_hashes_collision_cex :
    collEnv.bytes "a.tif" ≠ collEnv.bytes "b.tif" ∧
    verify_file_hashes collEnv "a.tif" "b.tif" = false := by
  constructor
  · decide
  · decide

/-- Claim C6 (amended): `verify_file_hashes` returns false whenever the two
paths hold byte-identical content (in particular the same file twice), and
in general returns true iff the MD5 digests of the two byte contents
differ — so byte-differing files compare true except on MD5 collisions. -/
theorem verify_file_hashes_spec (env : TiffEnv) (o c : String) :
    (env.bytes o = env.bytes c → verify_file_hashes env o c = false) ∧
    (verify_file_hashes env o c = true ↔
      md5 (env.bytes o) ≠ md5 (env.bytes c)) := by
  constructor
  · intro h
    simp [verify_file_hashes, h]
  · simp [verify_file_hashes]

/-- Witness for the amended C6: a file compared against byte-identical
content hashes equal, so the check reports false. -/
theorem verify_file_hashes_spec_witness :
    verify_file_hashes sameEnv "x.tif" "y.tif" = false :=
  (verify_file_hashes_spec sameEnv "x.tif" "y.tif").1 rfl

/-- Claim C7: two decoded arrays with identical min, max, mean and standard
deviation — in particular one a permutation of the other — make
`verify_statistics` return true, and a single-pixel change that shifts the
mean makes it return false. -/
theorem verify_statistics_spec (env : TiffEnv) (o c : String) (a b : NDArray)
    (ho : tiff_imread env o = .ok a) (hc : tiff_imread env c = .ok b)
    (_hne : a.data ≠ []) :
    (npmin a.data = npmin b.data → npmax a.data = npmax b.data →
      npmean a.data = npmean b.data → npvariance a.data = npvariance b.data →
      verify_statistics env o c = .ok true) ∧
    (a.data.Perm b.data → verify_statistics env o c = .ok true) ∧
    (∀ i v, b.data = a.data.set i v → npmean a.data ≠ npmean b.data →
      verify_statistics env o c = .ok false) := by
  unfold verify_statistics
  rw [ho, hc]
  refine ⟨?_, ?_, ?_⟩
  · intro h1 h2 h3 h4
    simp [stats_match, h1, h2, h3, h4]
  · intro p
    simp [stats_match_of_perm p]
  · intro i v hset hmean
    have hm : (npmean a.data == npmean b.data) = false :=
      beq_eq_false_iff_ne.mpr hmean
    simp [stats_match, hm]

/-- Witness for C7: a 2×2 array against a permutation of itself passes the
statistics check. -/
theorem verify_statistics_spec_witness :
    verify_statistics twoEnv "a.tif" "b.tif" = Except.ok true := by
  exact (verify_statistics_spec twoEnv "a.tif" "b.tif"
      ⟨[2, 2], [1, 2, 3, 4]⟩ ⟨[2, 2], [4, 3, 2, 1]⟩ rfl rfl (by decide)).2.1
    (by decide)

/-- Counterexample for C8: a decode error inside `verify_statistics`
surfaces as the raw library message, not wrapped in any descriptive
prefix. -/
theorem verify_statistics_raw_error_cex :
    verify_statistics errEnv "a.tif" "b.tif" = Except.error "decode failed" ∧
    "decode failed" ≠ "Pixel comparison failed: " ++ "decode failed" := by
  constructor
  · rfl
  · decide

/-- Claim C8 (amended): a read or decode error aborts each check with a
raised error and never a partial result, but only `verify_pixel_values`
wraps the error in a descriptive message; `verify_statistics`,
`verify_dimensions` and `verify_metadata` propagate the raw library error
unchanged. -/
theorem verify_error_spec (env : TiffEnv) (o c : String) (e : String) :
    (env.imread (env.bytes o) = .error e →
      verify_pixel_values env o c = .error ("Pixel comparison failed: " ++ e) ∧
      verify_statistics env o c = .error e) ∧
    (env.seriesShape0 (env.bytes o) = .error e →
      verify_dimensions env o c = .error e) ∧
    (env.imagejMeta (env.bytes o) = .error e →
      verify_metadata env o c = .error e) := by
  refine ⟨fun h => ⟨?_, ?_⟩, fun h => ?_, fun h => ?_⟩
  · simp [verify_pixel_values, tiff_imread, h]
  · simp [verify_statistics, tiff_imread, h]
  · simp [verify_dimensions, h]
  · simp [verify_metadata, h]

/-- Witness for the amended C8: in an all-raising environment the pixel
check wraps the message while the other checks re-raise it verbatim. -/
theorem verify_error_spec_witness :
    verify_pixel_values errEnv "a.tif" "b.tif" =
      Except.error ("Pixel comparison failed: " ++ "decode failed") ∧
    verify_statistics errEnv "a.tif" "b.tif" = Except.error "decode failed" ∧
    verify_dimensions errEnv "a.tif" "b.tif" = Except.error "decode failed" ∧
    verify_metadata errEnv "a.tif" "b.tif" = Except.error "decode failed" := by
  refine ⟨((verify_error_spec errEnv "a.tif" "b.tif" "decode failed").1 rfl).1,
    ((verify_error_spec errEnv "a.tif" "b.tif" "decode failed").1 rfl).2,
    (verify_error_spec errEnv "a.tif" "b.tif" "decode failed").2.1 rfl,
    (verify_error_spec errEnv "a.tif" "b.tif" "decode failed").2.2 rfl⟩

/-- Claim C9: for byte-identical files (in particular the same path twice),
`verify_all` reports the four content checks true but the file-hash check
false, so `check_compression` always reports overall failure — overall
success is unreachable for an unchanged file. -/
theorem check_compression_identical_spec (env : TiffEnv) (o c : String)
    (hb : env.bytes o = env.bytes c)
    (a : NDArray) (ha : env.imread (env.bytes o) = .ok a)
    (s : List Nat) (hs : env.seriesShape0 (env.bytes o) = .ok s)
    (m : Option ImagejDict) (hm : env.imagejMeta (env.bytes o) = .ok m) :
    verify_all env o c = .ok ⟨true, false, true, true, true⟩ ∧
    check_compression env o c = .ok false := by
  have hpix : verify_pixel_values env o c = .ok true := by
    unfold verify_pixel_values tiff_imread
    rw [← hb, ha]
    simp [np_array_equal]
  have hdim : verify_dimensions env o c = .ok true := by
    unfold verify_dimensions
    rw [← hb, hs]
    simp
  have hmeta : verify_metadata env o c = .ok true := by
    unfold verify_metadata
    rw [← hb, hm]
    cases m with
    | none => rfl
    | some d => simp [List.all_eq_true]
  have hstat : verify_statistics env o c = .ok true := by
    unfold verify_statistics tiff_imread
    rw [← hb, ha]
    simp [stats_match]
  have hhash : verify_file_hashes env o c = false := by
    unfold verify_file_hashes
    rw [hb]
    simp
  have hva : verify_all env o c = .ok ⟨true, false, true, true, true⟩ := by
    unfold verify_all
    rw [hpix, hdim, hmeta, hstat, hhash]
  exact ⟨hva, by unfold check_compression; rw [hva]; rfl⟩

/-- Witness for C9: the same path given twice yields four passing content
checks, a failing hash check, and overall failure. -/
theorem check_compression_identical_spec_witness :
    verify_all sameEnv "same.tif" "same.tif" =
      Except.ok ⟨true, false, true, true, true⟩ ∧
    check_compression sameEnv "same.tif" "same.tif" = Except.ok false :=
  check_compression_identical_spec sameEnv "same.tif" "same.tif" rfl
    ⟨[3], [5, 6, 7]⟩ rfl [3] rfl (some [("frames", 3)]) rfl

/-- Claim C10: `manage_files` never lets a deletion error escape — when the
chosen file cannot be removed it returns the original path with the file
system unchanged, even when `compression_successful` is true, and the
reported kept file is always one of the two inputs. -/
theorem manage_files_error_spec (fs : List String)
    (original_path compressed_path : String) :
    (original_path ∉ fs →
      manage_files fs original_path compressed_path true = (fs, original_path)) ∧
    (compressed_path ∉ fs →
      manage_files fs original_path compressed_path false = (fs, original_path)) ∧
    (∀ success,
      (manage_files fs original_path compressed_path success).2 = original_path ∨
      (manage_files fs original_path compressed_path success).2 = compressed_path) := by
  refine ⟨fun h => by simp [manage_files, os_remove, h],
    fun h => by simp [manage_files, os_remove, h], fun success => ?_⟩
  cases success with
  | true =>
      by_cases h : original_path ∈ fs <;> simp [manage_files, os_remove, h]
  | false =>
      by_cases h : compressed_path ∈ fs <;> simp [manage_files, os_remove, h]

/-- Witness for C10: deleting a missing original on success is caught and
the original path is reported kept. -/
theorem manage_files_error_spec_witness :
    manage_files ["c.tif"] "o.tif" "c.tif" true = (["c.tif"], "o.tif") :=
  (manage_files_error_spec ["c.tif"] "o.tif" "c.tif").1 (by decide)
